import Mathlib

/-!
Shallow embedding of `network.py` (neural-guided scene coordinate regression
network, class `Network`).  Tensors of one batch element are modelled as total
functions `Img : ℕ → ℤ → ℤ → ℝ` (channel, row, column); a batch is `ℕ → Img`.
Convolution is cross-correlation with zero padding, exactly as `nn.Conv2d`.
Floating point is idealised as ℝ.
-/

noncomputable section

abbrev Img : Type := ℕ → ℤ → ℤ → ℝ

/-- Weight and bias of one `nn.Conv2d` layer: `weight outCh inCh ki kj`. -/
structure ConvParams where
  weight : ℕ → ℕ → ℕ → ℕ → ℝ
  bias : ℕ → ℝ

/-- Zero padding: read `x` inside the `H × W` window, `0` outside. -/
def padded (H W : ℕ) (x : Img) (c : ℕ) (i j : ℤ) : ℝ :=
  if 0 ≤ i ∧ i < (H : ℤ) ∧ 0 ≤ j ∧ j < (W : ℤ) then x c i j else 0

/-- `nn.Conv2d` forward: cross-correlation with square kernel `k`,
stride `s`, symmetric zero padding `p`, on an input of spatial size `H × W`
with `cin` channels. -/
def conv2d (p : ConvParams) (cin k s pd H W : ℕ) (x : Img) : Img :=
  fun co i j =>
    p.bias co +
      ∑ ci ∈ Finset.range cin, ∑ ki ∈ Finset.range k, ∑ kj ∈ Finset.range k,
        p.weight co ci ki kj *
          padded H W x ci ((s : ℤ) * i + (ki : ℤ) - (pd : ℤ))
            ((s : ℤ) * j + (kj : ℤ) - (pd : ℤ))

/-- `F.relu`. -/
def relu (x : ℝ) : ℝ := max x 0

/-- Pointwise `F.relu` on an image. -/
def reluI (x : Img) : Img := fun c i j => relu (x c i j)

/-- `F.logsigmoid`, i.e. `log (1 / (1 + exp (-x)))` in its stable form. -/
def logsigmoid (x : ℝ) : ℝ := -Real.log (1 + Real.exp (-x))

/-- Spatial size after one stride-2, kernel-3, padding-1 convolution. -/
def dHalf (H : ℕ) : ℕ := (H + 2 - 3) / 2 + 1

/-- Spatial size after the stem (one stride-1 and three stride-2 convolutions):
the net subsampling of the network. -/
def dOut (H : ℕ) : ℕ := dHalf (dHalf (dHalf H))

/-- The parameter set of `Network` (`__init__` lines 22–53): all convolution
layers plus the stored mean coordinate (the `mean` buffer, a clone of the
constructor argument). -/
structure Network where
  conv1 : ConvParams
  conv2 : ConvParams
  conv3 : ConvParams
  conv4 : ConvParams
  res1_conv1 : ConvParams
  res1_conv2 : ConvParams
  res1_conv3 : ConvParams
  res2_conv1 : ConvParams
  res2_conv2 : ConvParams
  res2_conv3 : ConvParams
  res2_skip : ConvParams
  res3_conv1 : ConvParams
  res3_conv2 : ConvParams
  res3_conv3 : ConvParams
  fc1 : ConvParams
  fc2 : ConvParams
  fc3 : ConvParams
  fc1_1 : ConvParams
  fc2_1 : ConvParams
  fc3_1 : ConvParams
  mean : List ℝ

/-- Stem, `forward` lines 65–68: four relu-ed convolutions, channels
3→32→64→128→256, strides 1,2,2,2. -/
def stem (net : Network) (H W : ℕ) (x : Img) : Img :=
  let x1 := reluI (conv2d net.conv1 3 3 1 1 H W x)
  let x2 := reluI (conv2d net.conv2 32 3 2 1 H W x1)
  let x3 := reluI (conv2d net.conv3 64 3 2 1 (dHalf H) (dHalf W) x2)
  reluI (conv2d net.conv4 128 3 2 1 (dHalf (dHalf H)) (dHalf (dHalf W)) x3)

/-- Residual block 1, `forward` lines 70–74: three relu-ed convolutions at 256
channels, then `res = res + x` (identity shortcut, nothing after the add). -/
def res1block (net : Network) (h w : ℕ) (r : Img) : Img :=
  let x1 := reluI (conv2d net.res1_conv1 256 3 1 1 h w r)
  let x2 := reluI (conv2d net.res1_conv2 256 1 1 0 h w x1)
  let x3 := reluI (conv2d net.res1_conv3 256 3 1 1 h w x2)
  fun c i j => r c i j + x3 c i j

/-- Residual block 2, `forward` lines 76–80: three relu-ed convolutions
(256→512→512→512), then `res = self.res2_skip(res) + x` (1×1 projection
shortcut, nothing after the add).  Note the source applies `F.relu` after the
third convolution as well. -/
def res2block (net : Network) (h w : ℕ) (r : Img) : Img :=
  let x1 := reluI (conv2d net.res2_conv1 256 3 1 1 h w r)
  let x2 := reluI (conv2d net.res2_conv2 512 1 1 0 h w x1)
  let x3 := reluI (conv2d net.res2_conv3 512 3 1 1 h w x2)
  fun c i j => conv2d net.res2_skip 256 1 1 0 h w r c i j + x3 c i j

/-- Residual block 2 as the specification describes it: rectifying
nonlinearity after each of the first two convolutions only, none after the
third, projection shortcut added with no nonlinearity after the add. -/
def res2blockSpec (net : Network) (h w : ℕ) (r : Img) : Img :=
  let x1 := reluI (conv2d net.res2_conv1 256 3 1 1 h w r)
  let x2 := reluI (conv2d net.res2_conv2 512 1 1 0 h w x1)
  let x3 := conv2d net.res2_conv3 512 3 1 1 h w x2
  fun c i j => conv2d net.res2_skip 256 1 1 0 h w r c i j + x3 c i j

/-- Residual block 3, `forward` lines 82–86: like block 1 at 512 channels. -/
def res3block (net : Network) (h w : ℕ) (r : Img) : Img :=
  let x1 := reluI (conv2d net.res3_conv1 512 3 1 1 h w r)
  let x2 := reluI (conv2d net.res3_conv2 512 1 1 0 h w x1)
  let x3 := reluI (conv2d net.res3_conv3 512 3 1 1 h w x2)
  fun c i j => r c i j + x3 c i j

/-- The whole trunk: stem followed by the three residual blocks. -/
def trunkOf (net : Network) (H W : ℕ) (x : Img) : Img :=
  res3block net (dOut H) (dOut W)
    (res2block net (dOut H) (dOut W)
      (res1block net (dOut H) (dOut W) (stem net H W x)))

/-- Output head A (scene coordinates), `forward` lines 89–91: two relu-ed 1×1
convolutions at 512 channels, then a 1×1 convolution to 3 channels with no
nonlinearity (the mean is added afterwards, lines 93–95). -/
def headA (net : Network) (h w : ℕ) (r : Img) : Img :=
  let s1 := reluI (conv2d net.fc1 512 1 1 0 h w r)
  let s2 := reluI (conv2d net.fc2 512 1 1 0 h w s1)
  conv2d net.fc3 512 1 1 0 h w s2

/-- Output head B (neural guidance), `forward` lines 98–100: two relu-ed 1×1
convolutions at 512 channels, then a 1×1 convolution to 1 channel. -/
def headB (net : Network) (h w : ℕ) (r : Img) : Img :=
  let g1 := reluI (conv2d net.fc1_1 512 1 1 0 h w r)
  let g2 := reluI (conv2d net.fc2_1 512 1 1 0 h w g1)
  conv2d net.fc3_1 512 1 1 0 h w g2

/-- A tensor together with its autograd participation flag; `detach` drops the
flag but keeps the forward value (`res.detach()` in `forward` line 98). -/
structure GTensor where
  val : Img
  reqGrad : Bool

def GTensor.detach (t : GTensor) : GTensor := ⟨t.val, false⟩

/-- `sc[:, c] += delta`: in-place addition of a scalar to one channel
(`forward` lines 93–95 perform this for channels 0, 1, 2). -/
def updateChannel (t : Img) (c : ℕ) (delta : ℝ) : Img :=
  fun c' i j => if c' = c then t c' i j + delta else t c' i j

/-- Head B applied to the detached trunk output (`forward` lines 98–103,
before normalization), at channel 0. -/
def rawGuidance (net : Network) (H W : ℕ) (x : Img) : Img :=
  headB net (dOut H) (dOut W) (GTensor.detach ⟨trunkOf net H W x, true⟩).val

/-- The single log-sum-exp normalizer of `forward` line 106: the whole batch is
flattened into one sequence (`view(-1)`) and one scalar is computed from all
`b * dOut H * dOut W` entries. -/
def normalizerOf (net : Network) (b H W : ℕ) (inputs : ℕ → Img) : ℝ :=
  Real.log (∑ n ∈ Finset.range b, ∑ i ∈ Finset.range (dOut H),
    ∑ j ∈ Finset.range (dOut W),
      Real.exp (logsigmoid (rawGuidance net H W (inputs n) 0 (i : ℤ) (j : ℤ))))

/-- The per-image normalizer: log-sum-exp over one image's grid only. -/
def perImageNorm (net : Network) (H W : ℕ) (x : Img) : ℝ :=
  Real.log (∑ i ∈ Finset.range (dOut H), ∑ j ∈ Finset.range (dOut W),
    Real.exp (logsigmoid (rawGuidance net H W x 0 (i : ℤ) (j : ℤ))))

/-- `Network.forward`, lines 62–112, on a batch of `b` images of size
`H × W`.  First component: scene coordinates (head A plus the stored mean
added channelwise in place).  Second component: the guidance log-probabilities
after log-sigmoid and subtraction of the single batch-wide normalizer; the
flatten/reshape round trip (`view(-1)` then `view(batch, 1, h, w)`) is the
identity on the `(n, i, j)` indexing, so the reshaped tensor reads off the
flat entries directly. -/
def Network.forward (net : Network) (b H W : ℕ) (inputs : ℕ → Img) :
    (ℕ → Img) × (ℕ → Img) :=
  (fun n =>
    updateChannel
      (updateChannel
        (updateChannel (headA net (dOut H) (dOut W) (trunkOf net H W (inputs n)))
          0 (net.mean.getD 0 0))
        1 (net.mean.getD 1 0))
      2 (net.mean.getD 2 0),
   fun n _c i j =>
    logsigmoid (rawGuidance net H W (inputs n) 0 i j) - normalizerOf net b H W inputs)

/-!
Shape / error model.  PyTorch raises a runtime shape error when a
convolution's input channel count differs from the layer's, or when the
padded input is smaller than the kernel; `view` fails when element counts
differ.  All of these are modelled as `ShapeErr.shapeMismatch`.  The mean is
assumed well formed (3 components) here; construction is modelled separately.
-/

structure Shape4 where
  b : ℕ
  c : ℕ
  h : ℕ
  w : ℕ
deriving DecidableEq

inductive ShapeErr where
  | shapeMismatch
deriving DecidableEq

/-- Shape behaviour of one `nn.Conv2d(cin, cout, k, s, pd)` application. -/
def conv2dShape (cin cout k s pd : ℕ) (sh : Shape4) : Except ShapeErr Shape4 :=
  if sh.c = cin ∧ k ≤ sh.h + 2 * pd ∧ k ≤ sh.w + 2 * pd then
    .ok ⟨sh.b, cout, (sh.h + 2 * pd - k) / s + 1, (sh.w + 2 * pd - k) / s + 1⟩
  else .error .shapeMismatch

/-- Shape behaviour of an elementwise tensor addition. -/
def addShape (a a' : Shape4) : Except ShapeErr Shape4 :=
  if a = a' then .ok a else .error .shapeMismatch

/-- Shape behaviour of `view(b, 1, h, w)` applied to a flattened tensor. -/
def viewShape (g : Shape4) (b h w : ℕ) : Except ShapeErr Shape4 :=
  if g.b * g.c * g.h * g.w = b * 1 * h * w then .ok ⟨b, 1, h, w⟩
  else .error .shapeMismatch

/-- Shape-level transcription of `Network.forward` (lines 62–112): every
convolution, the three residual adds, and the final reshape, in source
order. -/
def forwardShape (sh : Shape4) : Except ShapeErr (Shape4 × Shape4) := do
  let x1 ← conv2dShape 3 32 3 1 1 sh
  let x2 ← conv2dShape 32 64 3 2 1 x1
  let x3 ← conv2dShape 64 128 3 2 1 x2
  let res0 ← conv2dShape 128 256 3 2 1 x3
  let r1 ← conv2dShape 256 256 3 1 1 res0
  let r2 ← conv2dShape 256 256 1 1 0 r1
  let r3 ← conv2dShape 256 256 3 1 1 r2
  let res1 ← addShape res0 r3
  let s1 ← conv2dShape 256 512 3 1 1 res1
  let s2 ← conv2dShape 512 512 1 1 0 s1
  let s3 ← conv2dShape 512 512 3 1 1 s2
  let sk ← conv2dShape 256 512 1 1 0 res1
  let res2 ← addShape sk s3
  let t1 ← conv2dShape 512 512 3 1 1 res2
  let t2 ← conv2dShape 512 512 1 1 0 t1
  let t3 ← conv2dShape 512 512 3 1 1 t2
  let res3 ← addShape res2 t3
  let a1 ← conv2dShape 512 512 1 1 0 res3
  let a2 ← conv2dShape 512 512 1 1 0 a1
  let sc ← conv2dShape 512 3 1 1 0 a2
  let g1 ← conv2dShape 512 512 1 1 0 res3
  let g2 ← conv2dShape 512 512 1 1 0 g1
  let g3 ← conv2dShape 512 1 1 1 0 g2
  let lg ← viewShape g3 sh.b sc.h sc.w
  return (sc, lg)

/-!
Construction model.  `__init__` (lines 16–53) performs no validation of the
mean vector: it registers a buffer and stores `mean.clone()`.  The result is
the stored mean.
-/

inductive CtorErr where
  | invalidArgument
deriving DecidableEq

/-- `Network.__init__`, restricted to its observable contract on the mean
argument: it stores a clone of the argument and cannot fail. -/
def Network.construct (mean : List ℝ) : Except CtorErr (List ℝ) :=
  .ok mean

/-!
Aliasing model for `mean.clone()` (line 53).  A store is a list of vectors;
references are indices; `storeClone` (the constructor's clone) allocates a
fresh cell holding a copy of the caller's vector, `storeWrite` mutates a
cell in place.
-/

def storeClone (σ : List (List ℝ)) (r : ℕ) : List (List ℝ) × ℕ :=
  (σ ++ [σ.getD r []], σ.length)

def storeWrite (σ : List (List ℝ)) (r : ℕ) (v : List ℝ) : List (List ℝ) :=
  σ.set r v

/-- Head B and the normalization applied directly to the non-detached trunk
output: the reference computation for the detach-transparency claim. -/
def guidanceDirect (net : Network) (b H W : ℕ) (inputs : ℕ → Img) : ℕ → Img :=
  fun n _c i j =>
    logsigmoid (headB net (dOut H) (dOut W) (trunkOf net H W (inputs n)) 0 i j) -
      Real.log (∑ m ∈ Finset.range b, ∑ i' ∈ Finset.range (dOut H),
        ∑ j' ∈ Finset.range (dOut W),
          Real.exp (logsigmoid
            (headB net (dOut H) (dOut W) (trunkOf net H W (inputs m)) 0 (i' : ℤ) (j' : ℤ))))


/-! Concrete parameter sets used for counterexamples and witnesses. -/

def zeroImg : Img := fun _ _ _ => 0

def zeroConv : ConvParams := ⟨fun _ _ _ _ => 0, fun _ => 0⟩

/-- All-zero weights and bias −1: makes the presence of a relu after the last
convolution of block 2 observable. -/
def negBiasConv : ConvParams := ⟨fun _ _ _ _ => 0, fun _ => -1⟩

def zeroNetwork : Network :=
  ⟨zeroConv, zeroConv, zeroConv, zeroConv, zeroConv, zeroConv, zeroConv,
   zeroConv, zeroConv, zeroConv, zeroConv, zeroConv, zeroConv, zeroConv,
   zeroConv, zeroConv, zeroConv, zeroConv, zeroConv, zeroConv, [0, 0, 0]⟩

def c4Network : Network := { zeroNetwork with res2_conv3 := negBiasConv }

/-- One `forward` invocation as a state transformer: it produces the output
pair and hands back the parameter record and input batch exactly as the body
leaves them (the body never assigns to `self` or `inputs`; the in-place mean
addition touches only the freshly created `sc`). -/
def forwardCall (net : Network) (b H W : ℕ) (inputs : ℕ → Img) :
    ((ℕ → Img) × (ℕ → Img)) × Network × (ℕ → Img) :=
  (Network.forward net b H W inputs, net, inputs)

/-- Two consecutive invocations, the second one reading whatever state the
first one left behind. -/
def forwardTwice (net : Network) (b H W : ℕ) (inputs : ℕ → Img) :
    ((ℕ → Img) × (ℕ → Img)) × ((ℕ → Img) × (ℕ → Img)) :=
  ((forwardCall net b H W inputs).1,
   (forwardCall (forwardCall net b H W inputs).2.1 b H W
      (forwardCall net b H W inputs).2.2).1)

/-- Total probability mass of the guidance head before normalization: the sum
of the exponentials of all `b · dOut H · dOut W` flattened log-sigmoid
entries (the argument of the log-sum-exp in `forward` line 106). -/
def guidanceMass (net : Network) (b H W : ℕ) (inputs : ℕ → Img) : ℝ :=
  ∑ n ∈ Finset.range b, ∑ i ∈ Finset.range (dOut H), ∑ j ∈ Finset.range (dOut W),
    Real.exp (logsigmoid (rawGuidance net H W (inputs n) 0 (i : ℤ) (j : ℤ)))

/-! Shape-model lemmas. -/

lemma ok_bind {α β : Type} (a : α) (f : α → Except ShapeErr β) :
    (Except.ok a >>= f) = f a := rfl

lemma error_bind {α β : Type} (e : ShapeErr) (f : α → Except ShapeErr β) :
    ((Except.error e : Except ShapeErr α) >>= f) = Except.error e := rfl

lemma pure_eq {α : Type} (a : α) : (pure a : Except ShapeErr α) = Except.ok a := rfl

@[simp] lemma dHalf_pos (x : ℕ) : 0 < dHalf x := by
  simp only [dHalf]
  omega

lemma dOut_pos (x : ℕ) : 0 < dOut x := dHalf_pos _

lemma conv2dShape_same3 (cin cout bb p q : ℕ) (hp : 0 < p) (hq : 0 < q) :
    conv2dShape cin cout 3 1 1 ⟨bb, cin, p, q⟩ = .ok ⟨bb, cout, p, q⟩ := by
  have e1 : (p + 2 * 1 - 3) / 1 + 1 = p := by omega
  have e2 : (q + 2 * 1 - 3) / 1 + 1 = q := by omega
  unfold conv2dShape
  rw [if_pos ⟨rfl, show (3:ℕ) ≤ p + 2 * 1 by omega, show (3:ℕ) ≤ q + 2 * 1 by omega⟩]
  show Except.ok (⟨bb, cout, (p + 2 * 1 - 3) / 1 + 1, (q + 2 * 1 - 3) / 1 + 1⟩ : Shape4) = _
  rw [e1, e2]

lemma conv2dShape_same1 (cin cout bb p q : ℕ) (hp : 0 < p) (hq : 0 < q) :
    conv2dShape cin cout 1 1 0 ⟨bb, cin, p, q⟩ = .ok ⟨bb, cout, p, q⟩ := by
  have e1 : (p + 2 * 0 - 1) / 1 + 1 = p := by omega
  have e2 : (q + 2 * 0 - 1) / 1 + 1 = q := by omega
  unfold conv2dShape
  rw [if_pos ⟨rfl, show (1:ℕ) ≤ p + 2 * 0 by omega, show (1:ℕ) ≤ q + 2 * 0 by omega⟩]
  show Except.ok (⟨bb, cout, (p + 2 * 0 - 1) / 1 + 1, (q + 2 * 0 - 1) / 1 + 1⟩ : Shape4) = _
  rw [e1, e2]

lemma conv2dShape_half (cin cout bb p q : ℕ) (hp : 0 < p) (hq : 0 < q) :
    conv2dShape cin cout 3 2 1 ⟨bb, cin, p, q⟩ = .ok ⟨bb, cout, dHalf p, dHalf q⟩ := by
  have e1 : (p + 2 * 1 - 3) / 2 + 1 = dHalf p := by
    simp only [dHalf]
  have e2 : (q + 2 * 1 - 3) / 2 + 1 = dHalf q := by
    simp only [dHalf]
  unfold conv2dShape
  rw [if_pos ⟨rfl, show (3:ℕ) ≤ p + 2 * 1 by omega, show (3:ℕ) ≤ q + 2 * 1 by omega⟩]
  show Except.ok (⟨bb, cout, (p + 2 * 1 - 3) / 2 + 1, (q + 2 * 1 - 3) / 2 + 1⟩ : Shape4) = _
  rw [e1, e2]

lemma addShape_self (a : Shape4) : addShape a a = .ok a := by
  simp [addShape]

lemma viewShape_ok (b h w : ℕ) : viewShape ⟨b, 1, h, w⟩ b h w = .ok ⟨b, 1, h, w⟩ := by
  simp [viewShape]

/-- On a well-formed input the whole shape pipeline succeeds with the
subsampled output sizes. -/
lemma forwardShape_valid (bb h w : ℕ) (hh : 0 < h) (hw : 0 < w) :
    forwardShape ⟨bb, 3, h, w⟩ =
      .ok (⟨bb, 3, dOut h, dOut w⟩, ⟨bb, 1, dOut h, dOut w⟩) := by
  have p1 : (0:ℕ) < dHalf h := dHalf_pos h
  have q1 : (0:ℕ) < dHalf w := dHalf_pos w
  have p2 : (0:ℕ) < dHalf (dHalf h) := dHalf_pos _
  have q2 : (0:ℕ) < dHalf (dHalf w) := dHalf_pos _
  have p3 : (0:ℕ) < dOut h := dOut_pos h
  have q3 : (0:ℕ) < dOut w := dOut_pos w
  have hd : ∀ x : ℕ, dHalf (dHalf (dHalf x)) = dOut x := fun _ => rfl
  simp only [forwardShape]
  rw [conv2dShape_same3 3 32 bb h w hh hw, ok_bind]
  rw [conv2dShape_half 32 64 bb h w hh hw, ok_bind]
  rw [conv2dShape_half 64 128 bb (dHalf h) (dHalf w) p1 q1, ok_bind]
  rw [conv2dShape_half 128 256 bb (dHalf (dHalf h)) (dHalf (dHalf w)) p2 q2, ok_bind, hd, hd]
  rw [conv2dShape_same3 256 256 bb (dOut h) (dOut w) p3 q3, ok_bind]
  rw [conv2dShape_same1 256 256 bb (dOut h) (dOut w) p3 q3, ok_bind]
  rw [conv2dShape_same3 256 256 bb (dOut h) (dOut w) p3 q3, ok_bind]
  rw [addShape_self ⟨bb, 256, dOut h, dOut w⟩, ok_bind]
  rw [conv2dShape_same3 256 512 bb (dOut h) (dOut w) p3 q3, ok_bind]
  rw [conv2dShape_same1 512 512 bb (dOut h) (dOut w) p3 q3, ok_bind]
  rw [conv2dShape_same3 512 512 bb (dOut h) (dOut w) p3 q3, ok_bind]
  rw [conv2dShape_same1 256 512 bb (dOut h) (dOut w) p3 q3, ok_bind]
  rw [addShape_self ⟨bb, 512, dOut h, dOut w⟩, ok_bind]
  rw [conv2dShape_same3 512 512 bb (dOut h) (dOut w) p3 q3, ok_bind]
  rw [conv2dShape_same1 512 512 bb (dOut h) (dOut w) p3 q3, ok_bind]
  rw [conv2dShape_same3 512 512 bb (dOut h) (dOut w) p3 q3, ok_bind]
  rw [addShape_self ⟨bb, 512, dOut h, dOut w⟩, ok_bind]
  rw [conv2dShape_same1 512 512 bb (dOut h) (dOut w) p3 q3, ok_bind]
  rw [conv2dShape_same1 512 512 bb (dOut h) (dOut w) p3 q3, ok_bind]
  rw [conv2dShape_same1 512 3 bb (dOut h) (dOut w) p3 q3, ok_bind]
  rw [ok_bind]
  rw [conv2dShape_same1 512 512 bb (dOut h) (dOut w) p3 q3, ok_bind]
  rw [conv2dShape_same1 512 1 bb (dOut h) (dOut w) p3 q3, ok_bind]
  simp only [viewShape_ok, ok_bind, pure_eq]

/-- A wrong channel count or a zero spatial size makes the very first
convolution fail. -/
lemma forwardShape_invalid (sh : Shape4) (hbad : sh.c ≠ 3 ∨ sh.h = 0 ∨ sh.w = 0) :
    forwardShape sh = .error .shapeMismatch := by
  have h1 : conv2dShape 3 32 3 1 1 sh = .error .shapeMismatch := by
    unfold conv2dShape
    rw [if_neg]
    omega
  simp only [forwardShape, h1, error_bind]

/-- Claim C2 (amended): the forward pass fails with a ShapeMismatch condition,
at the first convolution, exactly when the channel count is not 3 or a spatial
dimension is zero; any input with 3 channels and positive spatial dimensions
is accepted, whether or not the dimensions are multiples of 8, and no other
runtime failure mode exists in the forward pass. -/
theorem forward_shape_failure_characterization (b c h w : ℕ) :
    (c = 3 ∧ 0 < h ∧ 0 < w →
      forwardShape ⟨b, c, h, w⟩ =
        .ok (⟨b, 3, dOut h, dOut w⟩, ⟨b, 1, dOut h, dOut w⟩)) ∧
    (c ≠ 3 ∨ h = 0 ∨ w = 0 → forwardShape ⟨b, c, h, w⟩ = .error .shapeMismatch) := by
  constructor
  · rintro ⟨rfl, hh, hw⟩
    exact forwardShape_valid b h w hh hw
  · intro hbad
    exact forwardShape_invalid ⟨b, c, h, w⟩ hbad

/-- Claim C2 counterexample: an input whose spatial dimensions are positive
but not multiples of 8 does NOT fail — the forward pass succeeds (with output
grid 2 × 2), contradicting the claim that every such input fails. -/
theorem forward_accepts_non_multiple_of_8 :
    ¬(10 % 8 = 0) ∧ forwardShape ⟨1, 3, 10, 10⟩ = .ok (⟨1, 3, 2, 2⟩, ⟨1, 1, 2, 2⟩) :=
  ⟨by decide, rfl⟩

/-- Witness for `forward_shape_failure_characterization` at concrete shapes:
channel count 4 fails, a valid 8 × 8 input succeeds. -/
theorem forward_shape_failure_witness :
    forwardShape ⟨1, 4, 8, 8⟩ = .error .shapeMismatch ∧
    forwardShape ⟨1, 3, 8, 8⟩ = .ok (⟨1, 3, 1, 1⟩, ⟨1, 1, 1, 1⟩) :=
  ⟨(forward_shape_failure_characterization 1 4 8 8).2 (by decide),
   (forward_shape_failure_characterization 1 3 8 8).1 ⟨rfl, by decide, by decide⟩⟩

/-- Claim C5: on a valid input of shape (b, 3, 8h, 8w) the forward pass
returns shapes (b, 3, h, w) and (b, 1, h, w); the factor 8 is the composition
of the stem's three stride-2 halvings (the stride-1 convolution preserves the
size). -/
theorem forward_output_shapes (b h w : ℕ) (hh : 0 < h) (hw : 0 < w) :
    forwardShape ⟨b, 3, 8 * h, 8 * w⟩ = .ok (⟨b, 3, h, w⟩, ⟨b, 1, h, w⟩) ∧
    dHalf (8 * h) = 4 * h ∧ dHalf (4 * h) = 2 * h ∧ dHalf (2 * h) = h ∧
    dOut (8 * h) = h := by
  have d1 : dHalf (8 * h) = 4 * h := by
    simp only [dHalf]
    omega
  have d2 : dHalf (4 * h) = 2 * h := by
    simp only [dHalf]
    omega
  have d3 : dHalf (2 * h) = h := by
    simp only [dHalf]
    omega
  have dh : dOut (8 * h) = h := by
    simp only [dOut, d1, d2, d3]
  have dw : dOut (8 * w) = w := by
    have e1 : dHalf (8 * w) = 4 * w := by
      simp only [dHalf]
      omega
    have e2 : dHalf (4 * w) = 2 * w := by
      simp only [dHalf]
      omega
    have e3 : dHalf (2 * w) = w := by
      simp only [dHalf]
      omega
    simp only [dOut, e1, e2, e3]
  refine ⟨?_, d1, d2, d3, dh⟩
  rw [forwardShape_valid b (8 * h) (8 * w) (by omega) (by omega), dh, dw]

/-- Witness for `forward_output_shapes`: the spec's example, input
(2, 3, 64, 64) giving coordinate shape (2, 3, 8, 8) and guidance shape
(2, 1, 8, 8). -/
theorem forward_output_shapes_witness :
    (0:ℕ) < 8 ∧ forwardShape ⟨2, 3, 64, 64⟩ = .ok (⟨2, 3, 8, 8⟩, ⟨2, 1, 8, 8⟩) :=
  ⟨by decide, (forward_output_shapes 2 8 8 (by decide) (by decide)).1⟩

/-- Claim C3 counterexample: constructing the network with a 2-component
mean vector succeeds — `__init__` performs no validation — contradicting the
claim that it fails with InvalidArgument. -/
theorem construction_succeeds_on_short_mean :
    Network.construct [(1:ℝ), 2] = .ok [(1:ℝ), 2] := rfl

/-- Claim C3 (amended): construction never fails, whatever the length of the
mean vector; it stores a copy of the argument.  (The missing components only
surface later, when `forward` indexes `mean[0..2]`.) -/
theorem construction_never_fails (mean : List ℝ) :
    Network.construct mean = .ok mean ∧
    ∀ e : CtorErr, Network.construct mean ≠ .error e :=
  ⟨rfl, fun _ h => Except.noConfusion h⟩

/-- Witness for `construction_never_fails` on a 3-component mean. -/
theorem construction_never_fails_witness :
    Network.construct [(0:ℝ), 0, 0] = .ok [(0:ℝ), 0, 0] :=
  (construction_never_fails [(0:ℝ), 0, 0]).1

lemma conv2d_zero (cin k s pd H W : ℕ) (x : Img) (co : ℕ) (i j : ℤ) :
    conv2d zeroConv cin k s pd H W x co i j = 0 := by
  simp [conv2d, zeroConv]

lemma conv2d_negBias (cin k s pd H W : ℕ) (x : Img) (co : ℕ) (i j : ℤ) :
    conv2d negBiasConv cin k s pd H W x co i j = -1 := by
  simp [conv2d, negBiasConv]

lemma relu_neg_one : relu (-1 : ℝ) = 0 := by
  unfold relu
  exact max_eq_right (by norm_num)

/-- Claim C4 counterexample: with all weights zero and bias −1 on
`res2_conv3`, the block as implemented (relu after the third convolution)
yields 0 at the probe point while the spec's variant (no relu after the third
convolution) yields −1: the claim's description of block 2 does not match the
code. -/
theorem res2block_spec_mismatch :
    res2block c4Network 1 1 zeroImg 0 0 0 = 0 ∧
    res2blockSpec c4Network 1 1 zeroImg 0 0 0 = -1 ∧
    res2block c4Network 1 1 zeroImg 0 0 0 ≠ res2blockSpec c4Network 1 1 zeroImg 0 0 0 := by
  have hcode : res2block c4Network 1 1 zeroImg 0 0 0 = 0 := by
    simp only [res2block, reluI, c4Network, zeroNetwork]
    rw [conv2d_zero, conv2d_negBias, relu_neg_one, add_zero]
  have hspec : res2blockSpec c4Network 1 1 zeroImg 0 0 0 = -1 := by
    simp only [res2blockSpec, reluI, c4Network, zeroNetwork]
    rw [conv2d_zero, conv2d_negBias, zero_add]
  refine ⟨hcode, hspec, ?_⟩
  rw [hcode, hspec]
  norm_num

/-- Claim C4 (amended): in residual block 2 the rectifying nonlinearity is
applied after each of the THREE convolutions (kernel 3, kernel 1, kernel 3;
channels 256→512→512→512) — after the third as well; the block's input is
projected to 512 channels by the 1×1 skip convolution and added to the result,
with no nonlinearity after the add.  Consequently the block's output is never
below its skip path. -/
theorem res2block_structure (net : Network) (h w : ℕ) (r : Img) (c : ℕ) (i j : ℤ) :
    res2block net h w r c i j =
      conv2d net.res2_skip 256 1 1 0 h w r c i j +
        relu (conv2d net.res2_conv3 512 3 1 1 h w
          (reluI (conv2d net.res2_conv2 512 1 1 0 h w
            (reluI (conv2d net.res2_conv1 256 3 1 1 h w r)))) c i j) ∧
    conv2d net.res2_skip 256 1 1 0 h w r c i j ≤ res2block net h w r c i j :=
  ⟨rfl, le_add_of_nonneg_right (le_max_right _ _)⟩

/-- Claim C7: residual blocks 1 and 3 are identity-shortcut blocks: the output
equals the block's input plus the output of the three-convolution sub-network
applied to that input, with no projection on the skip path and nothing after
the add; since the sub-network output passes a final relu, the block output
never lies below its input. -/
theorem identity_residual_blocks (net : Network) (h w : ℕ) (r : Img) (c : ℕ) (i j : ℤ) :
    (res1block net h w r c i j =
      r c i j + reluI (conv2d net.res1_conv3 256 3 1 1 h w
        (reluI (conv2d net.res1_conv2 256 1 1 0 h w
          (reluI (conv2d net.res1_conv1 256 3 1 1 h w r))))) c i j) ∧
    r c i j ≤ res1block net h w r c i j ∧
    (res3block net h w r c i j =
      r c i j + reluI (conv2d net.res3_conv3 512 3 1 1 h w
        (reluI (conv2d net.res3_conv2 512 1 1 0 h w
          (reluI (conv2d net.res3_conv1 512 3 1 1 h w r))))) c i j) ∧
    r c i j ≤ res3block net h w r c i j :=
  ⟨rfl, le_add_of_nonneg_right (le_max_right _ _), rfl,
    le_add_of_nonneg_right (le_max_right _ _)⟩

/-- Claim C8: the detach before head B does not change the forward value —
the returned guidance tensor equals head B plus normalization applied to the
non-detached trunk output; `detach` keeps the value and only clears the
gradient flag. -/
theorem detach_transparent_guidance (net : Network) (b H W : ℕ) (inputs : ℕ → Img) :
    (Network.forward net b H W inputs).2 = guidanceDirect net b H W inputs ∧
    ∀ t : GTensor, t.detach.val = t.val ∧ t.detach.reqGrad = false :=
  ⟨rfl, fun _ => ⟨rfl, rfl⟩⟩

/-- Claim C9: a forward call leaves the parameters (including the stored
mean) and the input batch unchanged, two consecutive invocations give
identical output pairs, and the outputs are the value of a pure function of
parameters and input. -/
theorem forward_deterministic_no_mutation (net : Network) (b H W : ℕ)
    (inputs : ℕ → Img) :
    (forwardCall net b H W inputs).2.1 = net ∧
    (forwardCall net b H W inputs).2.2 = inputs ∧
    (forwardTwice net b H W inputs).1 = (forwardTwice net b H W inputs).2 ∧
    (forwardCall net b H W inputs).1 = Network.forward net b H W inputs :=
  ⟨rfl, rfl, rfl, rfl⟩

lemma normalizerOf_eq (net : Network) (b H W : ℕ) (inputs : ℕ → Img) :
    normalizerOf net b H W inputs = Real.log (guidanceMass net b H W inputs) := rfl

lemma guidanceMass_pos (net : Network) (b H W : ℕ) (inputs : ℕ → Img) (hb : 0 < b) :
    0 < guidanceMass net b H W inputs := by
  refine Finset.sum_pos (fun n _ => ?_) ⟨0, Finset.mem_range.mpr hb⟩
  refine Finset.sum_pos (fun i _ => ?_) ⟨0, Finset.mem_range.mpr (dOut_pos H)⟩
  refine Finset.sum_pos (fun j _ => ?_) ⟨0, Finset.mem_range.mpr (dOut_pos W)⟩
  exact Real.exp_pos _

/-- Claim C1: the guidance normalization flattens the whole batch, computes a
single log-sum-exp, and subtracts it from every entry, so the exponentials of
all entries across the whole batch sum to 1; for batch size 1 this is exactly
per-image normalization. -/
theorem guidance_batch_normalization (net : Network) (b H W : ℕ)
    (inputs : ℕ → Img) (hb : 0 < b) :
    (∑ n ∈ Finset.range b, ∑ i ∈ Finset.range (dOut H), ∑ j ∈ Finset.range (dOut W),
        Real.exp ((Network.forward net b H W inputs).2 n 0 (i : ℤ) (j : ℤ))) = 1 ∧
    (∀ c : ℕ, ∀ i j : ℤ, (Network.forward net 1 H W inputs).2 0 c i j =
        logsigmoid (rawGuidance net H W (inputs 0) 0 i j) -
          perImageNorm net H W (inputs 0)) := by
  constructor
  · have hS : 0 < guidanceMass net b H W inputs := guidanceMass_pos net b H W inputs hb
    have hent : ∀ (n : ℕ) (i j : ℤ), (Network.forward net b H W inputs).2 n 0 i j =
        logsigmoid (rawGuidance net H W (inputs n) 0 i j) -
          Real.log (guidanceMass net b H W inputs) := fun _ _ _ => rfl
    calc (∑ n ∈ Finset.range b, ∑ i ∈ Finset.range (dOut H), ∑ j ∈ Finset.range (dOut W),
            Real.exp ((Network.forward net b H W inputs).2 n 0 (i : ℤ) (j : ℤ)))
        = ∑ n ∈ Finset.range b, ∑ i ∈ Finset.range (dOut H), ∑ j ∈ Finset.range (dOut W),
            Real.exp (logsigmoid (rawGuidance net H W (inputs n) 0 (i : ℤ) (j : ℤ))) /
              Real.exp (Real.log (guidanceMass net b H W inputs)) := by
          simp only [hent, Real.exp_sub]
      _ = guidanceMass net b H W inputs / guidanceMass net b H W inputs := by
          rw [Real.exp_log hS]
          simp only [← Finset.sum_div]
          rfl
      _ = 1 := div_self (ne_of_gt hS)
  · intro c i j
    have hnorm : normalizerOf net 1 H W inputs = perImageNorm net H W (inputs 0) := by
      simp only [normalizerOf, perImageNorm, Finset.sum_range_one]
    show logsigmoid (rawGuidance net H W (inputs 0) 0 i j) -
        normalizerOf net 1 H W inputs = _
    rw [hnorm]

/-- Witness for `guidance_batch_normalization` on a concrete network and a
batch of one 8 × 8 image. -/
theorem guidance_batch_normalization_witness :
    (0:ℕ) < 1 ∧
    (∑ n ∈ Finset.range 1, ∑ i ∈ Finset.range (dOut 8), ∑ j ∈ Finset.range (dOut 8),
        Real.exp ((Network.forward zeroNetwork 1 8 8 (fun _ => zeroImg)).2 n 0
          (i : ℤ) (j : ℤ))) = 1 :=
  ⟨by decide,
   (guidance_batch_normalization zeroNetwork 1 8 8 (fun _ => zeroImg) (by decide)).1⟩

/-- One term of a non-negative triple sum is at most the whole sum. -/
lemma triple_single_le_sum (f : ℕ → ℕ → ℕ → ℝ) (b p q n i j : ℕ)
    (hf : ∀ x y z, 0 ≤ f x y z) (hn : n < b) (hi : i < p) (hj : j < q) :
    f n i j ≤ ∑ x ∈ Finset.range b, ∑ y ∈ Finset.range p, ∑ z ∈ Finset.range q, f x y z := by
  have h1 : f n i j ≤ ∑ z ∈ Finset.range q, f n i z :=
    Finset.single_le_sum (fun z _ => hf n i z) (Finset.mem_range.mpr hj)
  have h2 : (∑ z ∈ Finset.range q, f n i z) ≤
      ∑ y ∈ Finset.range p, ∑ z ∈ Finset.range q, f n y z :=
    Finset.single_le_sum (fun y _ => Finset.sum_nonneg fun z _ => hf n y z)
      (Finset.mem_range.mpr hi)
  have h3 : (∑ y ∈ Finset.range p, ∑ z ∈ Finset.range q, f n y z) ≤
      ∑ x ∈ Finset.range b, ∑ y ∈ Finset.range p, ∑ z ∈ Finset.range q, f x y z :=
    Finset.single_le_sum
      (fun x _ => Finset.sum_nonneg fun y _ => Finset.sum_nonneg fun z _ => hf x y z)
      (Finset.mem_range.mpr hn)
  exact h1.trans (h2.trans h3)

lemma logsigmoid_nonpos (x : ℝ) : logsigmoid x ≤ 0 := by
  unfold logsigmoid
  have h1 : (0:ℝ) ≤ Real.log (1 + Real.exp (-x)) :=
    Real.log_nonneg (le_add_of_nonneg_right (Real.exp_pos _).le)
  linarith

set_option maxRecDepth 16000 in
/-- Claim C10: every entry of the returned guidance tensor is ≤ 0: log-sigmoid
is non-positive everywhere, and the log-sum-exp normalizer is at least each
individual log-sigmoid entry. -/
theorem guidance_entries_nonpositive (net : Network) (b H W : ℕ)
    (inputs : ℕ → Img) (n c i j : ℕ) (hn : n < b) (hi : i < dOut H) (hj : j < dOut W) :
    (Network.forward net b H W inputs).2 n c (i : ℤ) (j : ℤ) ≤ 0 ∧
    (∀ x : ℝ, logsigmoid x ≤ 0) ∧
    logsigmoid (rawGuidance net H W (inputs n) 0 (i : ℤ) (j : ℤ)) ≤
      normalizerOf net b H W inputs := by
  have hb : 0 < b := lt_of_le_of_lt (Nat.zero_le n) hn
  have hS : 0 < guidanceMass net b H W inputs := guidanceMass_pos net b H W inputs hb
  have hterm : Real.exp (logsigmoid (rawGuidance net H W (inputs n) 0 (i : ℤ) (j : ℤ))) ≤
      guidanceMass net b H W inputs :=
    triple_single_le_sum
      (fun x y z => Real.exp (logsigmoid (rawGuidance net H W (inputs x) 0 (y : ℤ) (z : ℤ))))
      b (dOut H) (dOut W) n i j (fun _ _ _ => (Real.exp_pos _).le) hn hi hj
  have hle : logsigmoid (rawGuidance net H W (inputs n) 0 (i : ℤ) (j : ℤ)) ≤
      normalizerOf net b H W inputs := by
    rw [normalizerOf_eq]
    exact (Real.le_log_iff_exp_le hS).mpr hterm
  refine ⟨?_, logsigmoid_nonpos, hle⟩
  show logsigmoid (rawGuidance net H W (inputs n) 0 (i : ℤ) (j : ℤ)) -
      normalizerOf net b H W inputs ≤ 0
  linarith

/-- Witness for `guidance_entries_nonpositive` at the single entry of a
batch-of-one 8 × 8 input on a concrete network. -/
theorem guidance_entries_nonpositive_witness :
    (0:ℕ) < 1 ∧ (0:ℕ) < dOut 8 ∧
    (Network.forward zeroNetwork 1 8 8 (fun _ => zeroImg)).2 0 0 0 0 ≤ 0 :=
  ⟨by decide, by decide,
   (guidance_entries_nonpositive zeroNetwork 1 8 8 (fun _ => zeroImg) 0 0 0 0
      (by decide) (by decide) (by decide)).1⟩

/-- Mutating the caller's cell after the constructor cloned it does not
change the stored copy. -/
lemma storeClone_isolated (σ : List (List ℝ)) (r : ℕ) (v : List ℝ) (hr : r < σ.length) :
    (storeWrite (storeClone σ r).1 r v).getD (storeClone σ r).2 [] = σ.getD r [] := by
  simp only [storeClone, storeWrite]
  rw [List.getD_eq_getElem?_getD, List.getElem?_set_ne (by omega : r ≠ σ.length),
    List.getElem?_concat_length]
  rfl

/-- Claim C6: the mean's three components are added to the three coordinate
channels after the final 1×1 projection; the mean is the only way `mean`
enters the output (the guidance output is independent of it, and changing the
mean shifts each coordinate channel by exactly the mean difference); and the
constructor stores an independent copy, so writing to the caller's vector
after construction leaves the forward outputs unchanged. -/
theorem mean_after_projection_and_independent (net : Network) (m' : List ℝ)
    (b H W : ℕ) (inputs : ℕ → Img) (n c : ℕ) (i j : ℤ) (hc : c < 3)
    (σ : List (List ℝ)) (r : ℕ) (v : List ℝ) (hr : r < σ.length) :
    ((Network.forward net b H W inputs).1 n c i j =
      headA net (dOut H) (dOut W) (trunkOf net H W (inputs n)) c i j +
        net.mean.getD c 0) ∧
    ((Network.forward { net with mean := m' } b H W inputs).2 =
      (Network.forward net b H W inputs).2) ∧
    ((Network.forward { net with mean := m' } b H W inputs).1 n c i j -
        (Network.forward net b H W inputs).1 n c i j =
      m'.getD c 0 - net.mean.getD c 0) ∧
    ((storeWrite (storeClone σ r).1 r v).getD (storeClone σ r).2 [] = σ.getD r []) ∧
    (Network.forward
        { net with
          mean := (storeWrite (storeClone σ r).1 r v).getD (storeClone σ r).2 [] }
        b H W inputs =
      Network.forward { net with mean := σ.getD r [] } b H W inputs) := by
  have h1 : ∀ nt : Network,
      (Network.forward nt b H W inputs).1 n c i j =
        headA nt (dOut H) (dOut W) (trunkOf nt H W (inputs n)) c i j +
          nt.mean.getD c 0 := by
    intro nt
    have hu : (Network.forward nt b H W inputs).1 n c i j =
        updateChannel (updateChannel (updateChannel
          (headA nt (dOut H) (dOut W) (trunkOf nt H W (inputs n)))
          0 (nt.mean.getD 0 0)) 1 (nt.mean.getD 1 0)) 2 (nt.mean.getD 2 0) c i j := rfl
    rw [hu]
    interval_cases c <;> simp [updateChannel]
  have h3 : (Network.forward { net with mean := m' } b H W inputs).1 n c i j -
      (Network.forward net b H W inputs).1 n c i j =
        m'.getD c 0 - net.mean.getD c 0 := by
    rw [h1 { net with mean := m' }, h1 net]
    have hA : headA { net with mean := m' } (dOut H) (dOut W)
        (trunkOf { net with mean := m' } H W (inputs n)) c i j =
        headA net (dOut H) (dOut W) (trunkOf net H W (inputs n)) c i j := rfl
    have hm : ({ net with mean := m' } : Network).mean = m' := rfl
    rw [hA, hm]
    ring
  have h5 : Network.forward
      { net with
        mean := (storeWrite (storeClone σ r).1 r v).getD (storeClone σ r).2 [] }
      b H W inputs =
      Network.forward { net with mean := σ.getD r [] } b H W inputs := by
    rw [storeClone_isolated σ r v hr]
  exact ⟨h1 net, rfl, h3, storeClone_isolated σ r v hr, h5⟩

/-- Witness for `mean_after_projection_and_independent`: one-cell store, the
caller's vector `[5]` is cloned, then overwritten with `[9]`; the stored copy
still reads `[5]`. -/
theorem mean_after_projection_witness :
    (0:ℕ) < 3 ∧ (0:ℕ) < ([[(5:ℝ)]] : List (List ℝ)).length ∧
    (storeWrite (storeClone [[(5:ℝ)]] 0).1 0 [(9:ℝ)]).getD
      (storeClone [[(5:ℝ)]] 0).2 [] = [(5:ℝ)] :=
  ⟨by decide, by decide,
   (mean_after_projection_and_independent zeroNetwork [1, 2, 3] 1 8 8
      (fun _ => zeroImg) 0 0 0 0 (by decide) [[(5:ℝ)]] 0 [(9:ℝ)] (by decide)).2.2.2.1⟩

end
